import Mathlib

/-!
# Verification of the qrek Tempo-calendar conversion engine

This file gives a shallow embedding, in Lean 4, of the core of the qrek
repository (src/astro/julian.rs and src/tempo.rs) and settles the frozen
claims C1..C10 about it.

Embedding conventions:

* Rust `f64` values are embedded as exact rationals (`ℚ`); every `f64`
  literal of the source (`365.25`, `30.59`, `2400000.5`, `0.375`, `365.2`,
  `29.530589`, ...) is read as the exact rational it denotes.  This
  idealisation drops IEEE rounding, so it can make equalities hold that
  real `f64` arithmetic breaks; an equality result that hinges on the
  absence of rounding (the whole-second exactness of the Julian round
  trip) is therefore stated below as a fact about the model only, never
  as a proof of the program.  Order and control-flow results are robust:
  where they are claimed of the program, the decisive gaps dominate the
  worst-case rounding by orders of magnitude.
* Rust integer casts are embedded faithfully: `as i32` / `as u32` /
  `as usize` on an `f64` truncate toward zero and saturate at the target
  range; `as u32` on an `i32` wraps two's-complement; `usize` arithmetic
  wraps modulo `2^64`.
* Rust `i32` division and remainder are `Int.tdiv` (truncated) and
  `Int.emod` (`rem_euclid`).  Within every domain quantified over below the
  `i32` intermediates stay far inside the `i32` range, so plain `ℤ`
  arithmetic is used for them.
* The ephemeris provider (`crate::astro::longitude::jcg78`) is not part of
  the repository's staged sources; following the spec it is treated as a
  black-box pure function.  Every definition that consumes it is
  parameterised by `sun moon : ℚ → ℚ`.
* Source `while` loops without an iteration cap are embedded with an
  explicit fuel parameter and an `Option` result (`none` = fuel ran out);
  the loop of `calculate_leading_saku`, which the source caps at 31 bodies,
  is proved to need no fuel beyond 31.
-/

namespace Qrek

/-! ## Primitive cast semantics (Rust `as` and `f64` helpers) -/

/-- Rust `f64` truncation toward zero (`f64::trunc`, and the rounding used
by `as` casts to integer types). -/
def ratTrunc (q : ℚ) : ℤ := if 0 ≤ q then ⌊q⌋ else ⌈q⌉

/-- Rust `f64 as i32`: truncate toward zero, saturating at the `i32` range. -/
def f64AsI32 (q : ℚ) : ℤ := max (-(2 ^ 31)) (min (2 ^ 31 - 1) (ratTrunc q))

/-- Rust `f64 as u32`: truncate toward zero, saturating at `[0, 2^32)`. -/
def f64AsU32 (q : ℚ) : ℕ := (max 0 (min (2 ^ 32 - 1) (ratTrunc q))).toNat

/-- Rust `f64 as usize`: truncate toward zero, saturating at `[0, 2^64)`. -/
def f64AsUsize (q : ℚ) : ℕ := (max 0 (min (2 ^ 64 - 1) (ratTrunc q))).toNat

/-- Rust `i32 as u32`: two's-complement wrap. -/
def i32AsU32 (z : ℤ) : ℕ := (z % 2 ^ 32).toNat

/-- Rust `i32 as usize` (64-bit target): sign-extend, then wrap. -/
def i32AsUsize (z : ℤ) : ℕ := (z % 2 ^ 64).toNat

/-- Wrapping `usize` subtraction (release-mode Rust `-`). -/
def usizeSub (a b : ℕ) : ℕ := (a % 2 ^ 64 + (2 ^ 64 - b % 2 ^ 64)) % 2 ^ 64

/-! ## src/astro/julian.rs -/

/-- A Gregorian calendar date and time (the fields chrono's
`DateTime<Utc>` exposes to julian.rs).  The source is generic in the time
zone and converts through `naive_utc()`; the embedding instantiates the
zone with UTC, for which that conversion is the identity. -/
structure GDateTime where
  year : ℤ
  month : ℕ
  day : ℕ
  hour : ℕ
  minute : ℕ
  second : ℕ
deriving DecidableEq

/-- `to_julian_date` of src/astro/julian.rs, read with exact-rational
arithmetic.  The real function also rounds the final sum
`mjd + 2400000.5 + time` at one ulp of `jd` (about 4.7e-10 day, 2e-5 s),
which this embedding drops. -/
def to_julian_date (dt : GDateTime) : ℚ :=
  let ym : ℚ × ℚ :=
    if dt.month ≤ 2 then ((dt.year : ℚ) - 1, (dt.month : ℚ) + 12)
    else ((dt.year : ℚ), (dt.month : ℚ))
  let mjd : ℚ := (⌊ym.1 * 365.25⌋ : ℚ) + (⌊ym.1 / 400⌋ : ℚ) - (⌊ym.1 / 100⌋ : ℚ)
    + (⌊(ym.2 - 2) * 30.59⌋ : ℚ) + (dt.day : ℚ) - 678912
  let time : ℚ := (dt.hour : ℚ) / 24 + (dt.minute : ℚ) / 1440 + (dt.second : ℚ) / 86400
  mjd + 2400000.5 + time

/-- `from_julian_date` of src/astro/julian.rs (`i32` division is `tdiv`;
`rem_euclid` is Euclidean remainder, which is Lean's `%` on `ℤ`; `fract` is
value minus trunc), read with exact-rational arithmetic.  On a real `f64`
input that rounded down, the `(time * 86400.0) as u32` truncation loses
the second the rounding shaved off; the embedding has no such inputs. -/
def from_julian_date (jd : ℚ) : GDateTime :=
  let mjd : ℚ := jd - 2400000.5
  let n : ℤ := f64AsI32 (mjd + 678881)
  let a : ℤ := n * 4 + 3 + ((((n + 1) * 4).tdiv 146097 + 1) * 3).tdiv 4 * 4
  let b : ℤ := (a % 1461).tdiv 4 * 5 + 2
  let year : ℤ := a.tdiv 1461
  let month : ℤ := b.tdiv 153 + 3
  let day : ℤ := (b % 153).tdiv 5 + 1
  let ym : ℤ × ℤ := if month > 12 then (year + 1, month - 12) else (year, month)
  let time : ℚ := mjd - (ratTrunc mjd : ℚ)
  { year := ym.1
    month := i32AsU32 ym.2
    day := i32AsU32 day
    hour := f64AsU32 (time * 24)
    minute := f64AsU32 (time * 1440) % 60
    second := f64AsU32 (time * 86400) % 60 }

/-! ## Calendar validity

chrono's `Date`/`NaiveDate` accepts years `-262144..=262143` and only real
proleptic-Gregorian calendar dates; `and_hms` requires a real time of day.
-/

/-- The proleptic Gregorian leap-year rule (chrono's). -/
def isGregLeap (y : ℤ) : Prop := (y % 4 = 0 ∧ y % 100 ≠ 0) ∨ y % 400 = 0

instance (y : ℤ) : Decidable (isGregLeap y) := by unfold isGregLeap; infer_instance

/-- Days in a Gregorian month. -/
def daysInMonth (y : ℤ) (m : ℕ) : ℕ :=
  if m = 1 ∨ m = 3 ∨ m = 5 ∨ m = 7 ∨ m = 8 ∨ m = 10 ∨ m = 12 then 31
  else if m = 4 ∨ m = 6 ∨ m = 9 ∨ m = 11 then 30
  else if isGregLeap y then 29 else 28

/-- A datetime chrono can represent: a real calendar date in chrono's year
range, with a real wall-clock time. -/
def ValidDT (d : GDateTime) : Prop :=
  -262144 ≤ d.year ∧ d.year ≤ 262143 ∧
  1 ≤ d.month ∧ d.month ≤ 12 ∧
  1 ≤ d.day ∧ d.day ≤ daysInMonth d.year d.month ∧
  d.hour ≤ 23 ∧ d.minute ≤ 59 ∧ d.second ≤ 59

instance (d : GDateTime) : Decidable (ValidDT d) := by unfold ValidDT; infer_instance

/-- Calendar (lexicographic) order on datetimes. -/
def dtLt (a b : GDateTime) : Prop :=
  a.year < b.year ∨ (a.year = b.year ∧
    (a.month < b.month ∨ (a.month = b.month ∧
      (a.day < b.day ∨ (a.day = b.day ∧
        (a.hour < b.hour ∨ (a.hour = b.hour ∧
          (a.minute < b.minute ∨ (a.minute = b.minute ∧
            a.second < b.second)))))))))

instance (a b : GDateTime) : Decidable (dtLt a b) := by unfold dtLt; infer_instance

/-! ## Integer day-number model

`to_julian_date`'s integer part, restated over `ℤ` (where `/` and `%` are
Euclidean, which agrees with floor for the nonnegative operands below).
These definitions exist to carry the arithmetic of the proofs; bridge
lemmas connect them to the `ℚ`-level source embeddings.
-/

/-- Shifted year: dates in January/February belong to the previous
astronomical year. -/
def shiftY (d : GDateTime) : ℤ := if d.month ≤ 2 then d.year - 1 else d.year

/-- Shifted month, in `3..=14`. -/
def shiftM (d : GDateTime) : ℕ := if d.month ≤ 2 then d.month + 12 else d.month

/-- `⌊30.59 * (m - 2)⌋` as integer arithmetic. -/
def muZ (m : ℤ) : ℤ := 3059 * (m - 2) / 100

/-- `⌊365.25 y⌋ + ⌊y/400⌋ - ⌊y/100⌋` as integer arithmetic. -/
def fyZ (y : ℤ) : ℤ := 365 * y + y / 4 - y / 100 + y / 400

/-- The day-count `mjd + 678912` of a datetime (`mjd` is the integer part
computed by `to_julian_date`). -/
def dayNum (d : GDateTime) : ℤ := fyZ (shiftY d) + muZ (shiftM d) + d.day

/-- Seconds past midnight. -/
def secOfDay (d : GDateTime) : ℤ := 3600 * d.hour + 60 * d.minute + d.second

theorem muZ_floor (m : ℚ) (hm : ∃ z : ℤ, (z : ℚ) = m) :
    ⌊(m - 2) * 30.59⌋ = muZ ⌊m⌋ := by
  obtain ⟨z, rfl⟩ := hm
  have h1 : ((z : ℚ) - 2) * 30.59 = ((3059 * (z - 2) : ℤ) : ℚ) / ((100 : ℕ) : ℚ) := by
    push_cast; ring
  rw [h1, Rat.floor_intCast_div_natCast, Int.floor_intCast]
  rfl

theorem fy_floor (y : ℤ) :
    ⌊(y : ℚ) * 365.25⌋ + ⌊(y : ℚ) / 400⌋ - ⌊(y : ℚ) / 100⌋ = fyZ y := by
  have h1 : (y : ℚ) * 365.25 = ((1461 * y : ℤ) : ℚ) / ((4 : ℕ) : ℚ) := by push_cast; ring
  have h2 : (y : ℚ) / 400 = ((y : ℤ) : ℚ) / ((400 : ℕ) : ℚ) := by push_cast; ring
  have h3 : (y : ℚ) / 100 = ((y : ℤ) : ℚ) / ((100 : ℕ) : ℚ) := by push_cast; ring
  rw [h1, h2, h3, Rat.floor_intCast_div_natCast, Rat.floor_intCast_div_natCast,
    Rat.floor_intCast_div_natCast]
  unfold fyZ
  omega

theorem fl365 (y : ℤ) : ⌊(y : ℚ) * 365.25⌋ = 365 * y + y / 4 := by
  have h1 : (y : ℚ) * 365.25 = ((1461 * y : ℤ) : ℚ) / ((4 : ℕ) : ℚ) := by push_cast; ring
  rw [h1, Rat.floor_intCast_div_natCast]
  omega

theorem fl400 (y : ℤ) : ⌊(y : ℚ) / 400⌋ = y / 400 := by
  have h1 : (y : ℚ) / 400 = ((y : ℤ) : ℚ) / ((400 : ℕ) : ℚ) := by push_cast; ring
  rw [h1, Rat.floor_intCast_div_natCast]
  omega

theorem fl100 (y : ℤ) : ⌊(y : ℚ) / 100⌋ = y / 100 := by
  have h1 : (y : ℚ) / 100 = ((y : ℤ) : ℚ) / ((100 : ℕ) : ℚ) := by push_cast; ring
  rw [h1, Rat.floor_intCast_div_natCast]
  omega

/-- `to_julian_date` in terms of the integer day-number model: the JD is
the epoch offset plus `(86400 * mjd + seconds) / 86400`. -/
theorem to_julian_date_eq (d : GDateTime) :
    to_julian_date d =
      2400000.5 + ((86400 * (dayNum d - 678912) + secOfDay d : ℤ) : ℚ) / 86400 := by
  unfold to_julian_date dayNum secOfDay shiftY shiftM
  by_cases h : d.month ≤ 2
  · simp only [h, if_true]
    rw [show ((d.year : ℚ) - 1) = ((d.year - 1 : ℤ) : ℚ) by push_cast; ring,
      show ((d.month : ℚ) + 12 - 2) * 30.59 = ((((d.month : ℤ) + 12 : ℤ) : ℚ) - 2) * 30.59 by
        push_cast; ring,
      fl365, fl400, fl100, muZ_floor _ ⟨(d.month : ℤ) + 12, rfl⟩, Int.floor_intCast]
    unfold fyZ
    push_cast
    field_simp
    ring
  · simp only [h, if_false]
    rw [show ((d.month : ℚ) - 2) * 30.59 = ((((d.month : ℤ) : ℤ) : ℚ) - 2) * 30.59 by
        push_cast; ring,
      fl365, fl400, fl100, muZ_floor _ ⟨(d.month : ℤ), rfl⟩, Int.floor_intCast]
    unfold fyZ
    push_cast
    field_simp
    ring

/-- Length of shifted month `m` of shifted year `y` (for `m = 14`, February
of calendar year `y + 1`). -/
def lenZ (y m : ℤ) : ℤ :=
  if m = 14 then (if isGregLeap (y + 1) then 29 else 28) else muZ (m + 1) - muZ m

set_option maxHeartbeats 2000000 in
theorem cZ_norm (y r u v : ℤ) (hy0 : 0 ≤ y) (hv : 0 ≤ v) (hv2 : v < 100)
    (hy : y = 100 * u + v) (hr : 0 ≤ r) (hr2 : r ≤ 365) (hspec : ¬(v = 99 ∧ r = 365)) :
    (4 * (fyZ y + r) + 4) / 146097 = u := by
  unfold fyZ
  subst hy
  obtain ⟨v4, w, hw0, hw, hv'⟩ : ∃ v4 w, 0 ≤ w ∧ w < 4 ∧ v = 4 * v4 + w :=
    ⟨v / 4, v % 4, by omega, by omega, by omega⟩
  obtain ⟨u4, t, ht0, ht, hu'⟩ : ∃ u4 t, 0 ≤ t ∧ t < 4 ∧ u = 4 * u4 + t :=
    ⟨u / 4, u % 4, by omega, by omega, by omega⟩
  have h1 : (100 * u + v) / 100 = u := by omega
  have h2 : (100 * u + v) / 4 = 25 * u + v4 := by omega
  have h3 : (100 * u + v) / 400 = u4 := by omega
  rw [h1, h2, h3]
  subst hv' hu'
  omega

set_option maxHeartbeats 2000000 in
theorem cZ_spec (y r u : ℤ) (hu : 0 ≤ u) (hy : y = 100 * u + 99) (hr : r = 365) :
    (4 * (fyZ y + r) + 4) / 146097 = u + 1 := by
  unfold fyZ
  subst hy hr
  obtain ⟨u4, t, ht0, ht, hu'⟩ : ∃ u4 t, 0 ≤ t ∧ t < 4 ∧ u = 4 * u4 + t :=
    ⟨u / 4, u % 4, by omega, by omega, by omega⟩
  have h1 : (100 * u + 99) / 100 = u := by omega
  have h2 : (100 * u + 99) / 4 = 25 * u + 24 := by omega
  have h3 : (100 * u + 99) / 400 = u4 := by omega
  rw [h1, h2, h3]
  subst hu'
  omega

set_option maxHeartbeats 4000000 in
theorem aZ (y r : ℤ) (hy : 0 ≤ y) (hr : 0 ≤ r) (hr365 : r ≤ 365)
    (hsp : r = 365 → y % 4 = 3 ∧ (y % 100 = 99 → y % 400 = 399)) :
    (fyZ y + r) * 4 + 3 + (((fyZ y + r + 1) * 4) / 146097 + 1) * 3 / 4 * 4 =
      1461 * y + 4 * r + 3 - y % 4 := by
  have hc : ((fyZ y + r + 1) * 4) / 146097 = (4 * (fyZ y + r) + 4) / 146097 := by
    have : (fyZ y + r + 1) * 4 = 4 * (fyZ y + r) + 4 := by ring
    rw [this]
  rw [hc]
  by_cases hs : y % 100 = 99 ∧ r = 365
  · have hcv := cZ_spec y r (y / 100) (by omega) (by omega) hs.2
    rw [hcv]
    have h4 := hsp hs.2
    unfold fyZ at *
    obtain ⟨u4, t, ht0, ht, hu4⟩ : ∃ u4 t, 0 ≤ t ∧ t < 4 ∧ y / 100 = 4 * u4 + t :=
      ⟨y / 100 / 4, y / 100 % 4, by omega, by omega, by omega⟩
    have h2 : y / 4 = 25 * (y / 100) + (y % 100) / 4 := by omega
    have h3 : y / 400 = y / 100 / 4 := by omega
    rw [h2, h3]
    omega
  · have hcv := cZ_norm y r (y / 100) (y % 100) hy (by omega) (by omega) (by omega) hr hr365
      (by omega)
    rw [hcv]
    unfold fyZ at *
    obtain ⟨u4, t, ht0, ht, hu4⟩ : ∃ u4 t, 0 ≤ t ∧ t < 4 ∧ y / 100 = 4 * u4 + t :=
      ⟨y / 100 / 4, y / 100 % 4, by omega, by omega, by omega⟩
    have h2 : y / 4 = 25 * (y / 100) + (y % 100) / 4 := by omega
    have h3 : y / 400 = y / 100 / 4 := by omega
    rw [h2, h3]
    omega

set_option maxHeartbeats 4000000 in
theorem rRange (y m D : ℤ) (hm : 3 ≤ m) (hm14 : m ≤ 14) (hD : 1 ≤ D)
    (hlen : D ≤ lenZ y m) :
    0 ≤ muZ m + D - 31 ∧ muZ m + D - 31 ≤ 365 ∧
      (muZ m + D - 31 = 365 → y % 4 = 3 ∧ (y % 100 = 99 → y % 400 = 399)) := by
  unfold lenZ at hlen
  rcases eq_or_lt_of_le hm14 with h14 | h13
  · subst h14
    simp only [if_true, reduceIte] at hlen
    by_cases hL : isGregLeap (y + 1) <;>
      simp only [hL, if_true, if_false, reduceIte] at hlen <;>
      unfold isGregLeap at hL <;> unfold muZ <;> omega
  · have hne : ¬(m = 14) := by omega
    simp only [hne, if_false, reduceIte] at hlen
    unfold muZ at *
    interval_cases m <;> omega

set_option maxHeartbeats 4000000 in
theorem mdZ (y m D : ℤ) (hm : 3 ≤ m) (hm14 : m ≤ 14) (hD : 1 ≤ D)
    (hlen : D ≤ lenZ y m) :
    (5 * (muZ m + D - 31) + 2) / 153 + 3 = m ∧
      (5 * (muZ m + D - 31) + 2) % 153 / 5 + 1 = D := by
  unfold lenZ at hlen
  rcases eq_or_lt_of_le hm14 with h14 | h13
  · subst h14
    simp only [if_true, reduceIte] at hlen
    by_cases hL : isGregLeap (y + 1) <;>
      simp only [hL, if_true, if_false, reduceIte] at hlen <;>
      unfold muZ <;> omega
  · have hne : ¬(m = 14) := by omega
    simp only [hne, if_false, reduceIte] at hlen
    unfold muZ at *
    interval_cases m <;> omega

set_option maxHeartbeats 8000000 in
theorem fromJ_core (y m D n : ℤ) (hy : 0 ≤ y) (hm : 3 ≤ m) (hm14 : m ≤ 14) (hD : 1 ≤ D)
    (hlen : D ≤ lenZ y m) (hn : n = fyZ y + (muZ m + D - 31)) :
    n * 4 + 3 + ((n + 1) * 4 / 146097 + 1) * 3 / 4 * 4 =
      1461 * y + (4 * (muZ m + D - 31) + 3 - y % 4) ∧
    (1461 * y + (4 * (muZ m + D - 31) + 3 - y % 4)) / 1461 = y ∧
    (1461 * y + (4 * (muZ m + D - 31) + 3 - y % 4)) % 1461 / 4 * 5 + 2 =
      5 * (muZ m + D - 31) + 2 ∧
    (5 * (muZ m + D - 31) + 2) / 153 + 3 = m ∧
    (5 * (muZ m + D - 31) + 2) % 153 / 5 + 1 = D := by
  have hrr := rRange y m D hm hm14 hD hlen
  have hmd := mdZ y m D hm hm14 hD hlen
  have ha := aZ y (muZ m + D - 31) hy hrr.1 hrr.2.1 hrr.2.2
  have hkey : 0 ≤ 4 * (muZ m + D - 31) + 3 - y % 4 ∧ 4 * (muZ m + D - 31) + 3 - y % 4 ≤ 1460 := by
    rcases lt_or_eq_of_le hrr.2.1 with h365 | h365
    · omega
    · have h4 := (hrr.2.2 h365).1
      omega
  have hsh : n * 4 + 3 + ((n + 1) * 4 / 146097 + 1) * 3 / 4 * 4 =
      (fyZ y + (muZ m + D - 31)) * 4 + 3 +
        (((fyZ y + (muZ m + D - 31) + 1) * 4) / 146097 + 1) * 3 / 4 * 4 := by
    subst hn; rfl
  have hgrp : 1461 * y + 4 * (muZ m + D - 31) + 3 - y % 4 =
      1461 * y + (4 * (muZ m + D - 31) + 3 - y % 4) := by ring
  rw [hgrp] at ha
  rw [hsh, ha]
  have h2 : (1461 * y + (4 * (muZ m + D - 31) + 3 - y % 4)) / 1461 = y := by omega
  have h3 : (1461 * y + (4 * (muZ m + D - 31) + 3 - y % 4)) % 1461 =
      4 * (muZ m + D - 31) + 3 - y % 4 := by omega
  refine ⟨rfl, h2, ?_, hmd.1, hmd.2⟩
  rw [h3]
  omega

/-- The integer year/month/day chain of `from_julian_date`, with floor
division (equal to the source's truncated division on the nonnegative
inputs it receives in the proofs below). -/
def fjYMD (n : ℤ) : ℤ × ℤ × ℤ :=
  let a := n * 4 + 3 + ((n + 1) * 4 / 146097 + 1) * 3 / 4 * 4
  let b := a % 1461 / 4 * 5 + 2
  let year := a / 1461
  let month := b / 153 + 3
  let day := b % 153 / 5 + 1
  let ym := if month > 12 then (year + 1, month - 12) else (year, month)
  (ym.1, ym.2, day)


theorem f64AsU32_divCast (s : ℤ) (k : ℕ) (h0 : 0 ≤ s) (hsmall : s < 4294967295)
    (hk : (0 : ℚ) < ((k : ℕ) : ℚ)) :
    f64AsU32 (((s : ℤ) : ℚ) / ((k : ℕ) : ℚ)) = (s / (k : ℤ)).toNat := by
  unfold f64AsU32 ratTrunc
  rw [if_pos (div_nonneg (by exact_mod_cast h0) (le_of_lt hk)),
    Rat.floor_intCast_div_natCast]
  have hp : ((2 : ℤ) ^ 32 : ℤ) = 4294967296 := by norm_num
  have hdk : 0 ≤ s / (k : ℤ) := Int.ediv_nonneg h0 (by positivity)
  have hub : s / (k : ℤ) ≤ s := by
    rcases Nat.eq_zero_or_pos k with hk0 | hk1
    · subst hk0; simp at hk
    · exact Int.ediv_le_self _ h0
  omega

set_option maxHeartbeats 2000000 in
theorem from_julian_eval (M s : ℤ) (hM : 0 ≤ M) (hMhi : M ≤ 100000000)
    (hs : 0 ≤ s) (hs2 : s < 86400) :
    from_julian_date (2400000.5 + ((86400 * M + s : ℤ) : ℚ) / 86400) =
      { year := (fjYMD (M + 678881)).1
        month := i32AsU32 (fjYMD (M + 678881)).2.1
        day := i32AsU32 (fjYMD (M + 678881)).2.2
        hour := (s / 3600).toNat
        minute := (s / 60).toNat % 60
        second := s.toNat % 60 } := by
  have hQ : (2400000.5 : ℚ) + ((86400 * M + s : ℤ) : ℚ) / 86400 - 2400000.5 =
      ((86400 * M + s : ℤ) : ℚ) / ((86400 : ℕ) : ℚ) := by push_cast; ring
  have hQ0 : (0 : ℚ) ≤ ((86400 * M + s : ℤ) : ℚ) / ((86400 : ℕ) : ℚ) := by
    apply div_nonneg
    · exact_mod_cast (by omega : (0 : ℤ) ≤ 86400 * M + s)
    · norm_num
  have hfloorQ : ⌊((86400 * M + s : ℤ) : ℚ) / ((86400 : ℕ) : ℚ)⌋ = M := by
    rw [Rat.floor_intCast_div_natCast]; omega
  have htruncQ : ratTrunc (((86400 * M + s : ℤ) : ℚ) / ((86400 : ℕ) : ℚ)) = M := by
    unfold ratTrunc; rw [if_pos hQ0, hfloorQ]
  have hn : f64AsI32 (((86400 * M + s : ℤ) : ℚ) / ((86400 : ℕ) : ℚ) + 678881) =
      M + 678881 := by
    have h1 : ((86400 * M + s : ℤ) : ℚ) / ((86400 : ℕ) : ℚ) + 678881 =
        ((86400 * (M + 678881) + s : ℤ) : ℚ) / ((86400 : ℕ) : ℚ) := by push_cast; ring
    have h0 : (0 : ℚ) ≤ ((86400 * (M + 678881) + s : ℤ) : ℚ) / ((86400 : ℕ) : ℚ) := by
      apply div_nonneg
      · exact_mod_cast (by omega : (0 : ℤ) ≤ 86400 * (M + 678881) + s)
      · norm_num
    rw [h1]
    unfold f64AsI32 ratTrunc
    rw [if_pos h0, Rat.floor_intCast_div_natCast]
    have h2 : (86400 * (M + 678881) + s) / ((86400 : ℕ) : ℤ) = M + 678881 := by
      push_cast; omega
    rw [h2]
    have hp : ((2 : ℤ) ^ 31 : ℤ) = 2147483648 := by norm_num
    omega
  have htime : ((86400 * M + s : ℤ) : ℚ) / ((86400 : ℕ) : ℚ) - ((M : ℤ) : ℚ) =
      ((s : ℤ) : ℚ) / ((86400 : ℕ) : ℚ) := by
    push_cast
    field_simp
  have h24 : ((s : ℤ) : ℚ) / ((86400 : ℕ) : ℚ) * 24 = ((s : ℤ) : ℚ) / ((3600 : ℕ) : ℚ) := by
    push_cast; ring
  have h1440 : ((s : ℤ) : ℚ) / ((86400 : ℕ) : ℚ) * 1440 = ((s : ℤ) : ℚ) / ((60 : ℕ) : ℚ) := by
    push_cast; ring
  have h86400 : ((s : ℤ) : ℚ) / ((86400 : ℕ) : ℚ) * 86400 = ((s : ℤ) : ℚ) := by
    push_cast; field_simp
  have hsec : f64AsU32 ((s : ℤ) : ℚ) = s.toNat := by
    unfold f64AsU32 ratTrunc
    rw [if_pos (by exact_mod_cast hs), Int.floor_intCast]
    have hp : ((2 : ℤ) ^ 32 : ℤ) = 4294967296 := by norm_num
    omega
  unfold from_julian_date
  dsimp only
  rw [hQ, hn, htruncQ, htime, h24, h1440, h86400,
    f64AsU32_divCast s 3600 hs (by omega) (by norm_num),
    f64AsU32_divCast s 60 hs (by omega) (by norm_num), hsec]
  have hcnv1 : (((M + 678881) + 1) * 4).tdiv 146097 = ((M + 678881) + 1) * 4 / 146097 :=
    Int.tdiv_eq_ediv (by omega) (by norm_num)
  rw [hcnv1]
  have hc0 : 0 ≤ ((M + 678881) + 1) * 4 / 146097 := Int.ediv_nonneg (by omega) (by norm_num)
  have hcnv2 : ((((M + 678881) + 1) * 4 / 146097 + 1) * 3).tdiv 4 =
      (((M + 678881) + 1) * 4 / 146097 + 1) * 3 / 4 :=
    Int.tdiv_eq_ediv (by omega) (by norm_num)
  rw [hcnv2]
  have ha0 : 0 ≤ (M + 678881) * 4 + 3 + (((M + 678881) + 1) * 4 / 146097 + 1) * 3 / 4 * 4 := by
    have := Int.ediv_nonneg (a := (((M + 678881) + 1) * 4 / 146097 + 1) * 3) (b := 4)
      (by omega) (by norm_num)
    omega
  have hm0 : 0 ≤ ((M + 678881) * 4 + 3 + (((M + 678881) + 1) * 4 / 146097 + 1) * 3 / 4 * 4) % 1461 :=
    Int.emod_nonneg _ (by norm_num)
  have hcnv3 : (((M + 678881) * 4 + 3 + (((M + 678881) + 1) * 4 / 146097 + 1) * 3 / 4 * 4) % 1461).tdiv 4 =
      ((M + 678881) * 4 + 3 + (((M + 678881) + 1) * 4 / 146097 + 1) * 3 / 4 * 4) % 1461 / 4 :=
    Int.tdiv_eq_ediv hm0 (by norm_num)
  rw [hcnv3]
  have hb0 : 0 ≤ ((M + 678881) * 4 + 3 + (((M + 678881) + 1) * 4 / 146097 + 1) * 3 / 4 * 4) % 1461 / 4 * 5 + 2 := by
    have := Int.ediv_nonneg hm0 (by norm_num : (0:ℤ) ≤ 4)
    omega
  have hcnv4 := Int.tdiv_eq_ediv hb0 (by norm_num : (0:ℤ) ≤ 153)
  rw [hcnv4]
  have hcnv5 := Int.tdiv_eq_ediv ha0 (by norm_num : (0:ℤ) ≤ 1461)
  rw [hcnv5]
  have hbm0 : 0 ≤ (((M + 678881) * 4 + 3 + (((M + 678881) + 1) * 4 / 146097 + 1) * 3 / 4 * 4) % 1461 / 4 * 5 + 2) % 153 :=
    Int.emod_nonneg _ (by norm_num)
  have hcnv6 := Int.tdiv_eq_ediv hbm0 (by norm_num : (0:ℤ) ≤ 5)
  rw [hcnv6]
  unfold fjYMD
  rfl

theorem muZ_bounds (m : ℤ) (hm : 3 ≤ m) (hm14 : m ≤ 14) : 30 ≤ muZ m ∧ muZ m ≤ 367 := by
  unfold muZ; omega

set_option maxHeartbeats 2000000 in
theorem fjYMD_eq (y m D n : ℤ) (hy : 0 ≤ y) (hm : 3 ≤ m) (hm14 : m ≤ 14) (hD : 1 ≤ D)
    (hlen : D ≤ lenZ y m) (hn : n = fyZ y + (muZ m + D - 31)) :
    fjYMD n = ((if 12 < m then y + 1 else y), (if 12 < m then m - 12 else m), D) := by
  have h := fromJ_core y m D n hy hm hm14 hD hlen hn
  unfold fjYMD
  dsimp only
  rw [h.1, h.2.2.1, h.2.1, h.2.2.2.1, h.2.2.2.2]
  by_cases h13 : 12 < m <;> simp [h13]

set_option maxHeartbeats 2000000 in
theorem daysInMonth_lenZ (d : GDateTime) (h1 : 1 ≤ d.month) (h12 : d.month ≤ 12) :
    (daysInMonth d.year d.month : ℤ) = lenZ (shiftY d) (shiftM d) := by
  obtain ⟨y, mo, dy, hh, mi, se⟩ := d
  simp only [daysInMonth, lenZ, shiftY, shiftM] at *
  interval_cases mo <;> norm_num [muZ]

theorem daysInMonth_le31 (y : ℤ) (m : ℕ) : daysInMonth y m ≤ 31 := by
  unfold daysInMonth
  split
  · omega
  · split
    · omega
    · split <;> omega

set_option maxHeartbeats 4000000 in
/-- Model-level round trip: in the exact-rational reading of `f64`, for
every valid Gregorian datetime on or after 1858-11-17 (nonnegative MJD,
stated as `678912 ≤ dayNum d`), `from_julian_date (to_julian_date d) = d`.
This is a fact about the idealised model only — the real program also
rounds `mjd + 2400000.5 + time` at one ulp of `jd` (about 2e-5 s) and
`(time * 86400.0) as u32` then truncates, which drops a second for many
real inputs — so it is recorded as supporting analysis for C2, not as a
proof of the program.  It isolates the two failure sources: on this
domain every failure of the real program is a rounding effect, while
before 1858-11-17 the algorithm is wrong even in exact arithmetic
(`as i32` / `fract` truncate toward zero where the inverse needs
flooring): see `rt_cex`. -/
theorem from_to_roundtrip (d : GDateTime) (hv : ValidDT d) (hmjd : 678912 ≤ dayNum d) :
    from_julian_date (to_julian_date d) = d := by
  obtain ⟨hy1, hy2, hm1, hm2, hd1, hd2, hh, hmi, hse⟩ := hv
  have hlen : (d.day : ℤ) ≤ lenZ (shiftY d) (shiftM d) := by
    rw [← daysInMonth_lenZ d hm1 hm2]
    exact_mod_cast hd2
  have h3 : 3 ≤ ((shiftM d : ℕ) : ℤ) := by unfold shiftM; split <;> push_cast <;> omega
  have h14 : ((shiftM d : ℕ) : ℤ) ≤ 14 := by unfold shiftM; split <;> push_cast <;> omega
  have hD1 : 1 ≤ (d.day : ℤ) := by exact_mod_cast hd1
  have hD31 : (d.day : ℤ) ≤ 31 := by
    have := daysInMonth_le31 d.year d.month
    omega
  have hmu := muZ_bounds ((shiftM d : ℕ) : ℤ) h3 h14
  have hys : shiftY d ≤ 262143 := by unfold shiftY; split <;> omega
  have hy0 : 0 ≤ shiftY d := by
    unfold dayNum at hmjd
    unfold fyZ at hmjd
    omega
  have hMhi : dayNum d - 678912 ≤ 100000000 := by
    unfold dayNum fyZ
    omega
  have hs0 : 0 ≤ secOfDay d := by unfold secOfDay; omega
  have hs2 : secOfDay d < 86400 := by unfold secOfDay; omega
  rw [to_julian_date_eq d,
    from_julian_eval (dayNum d - 678912) (secOfDay d) (by omega) hMhi hs0 hs2]
  have hfj := fjYMD_eq (shiftY d) ((shiftM d : ℕ) : ℤ) (d.day : ℤ)
    (dayNum d - 678912 + 678881) hy0 h3 h14 hD1 hlen (by unfold dayNum; ring)
  rw [hfj]
  obtain ⟨y0, mo, dy, hr, mi, se⟩ := d
  simp only [shiftY, shiftM, secOfDay] at *
  by_cases hmo : mo ≤ 2
  · simp only [hmo, if_true, reduceIte] at *
    simp only [GDateTime.mk.injEq]
    have h13 : (12 : ℤ) < ((mo + 12 : ℕ) : ℤ) := by push_cast; omega
    refine ⟨?_, ?_, ?_, ?_, ?_, ?_⟩
    · rw [if_pos h13]; ring
    · rw [if_pos h13]; unfold i32AsU32; push_cast; omega
    · unfold i32AsU32; omega
    · omega
    · omega
    · omega
  · simp only [hmo, if_false, reduceIte] at *
    simp only [GDateTime.mk.injEq]
    have h13 : ¬((12 : ℤ) < ((mo : ℕ) : ℤ)) := by omega
    refine ⟨?_, ?_, ?_, ?_, ?_, ?_⟩
    · rw [if_neg h13]
    · rw [if_neg h13]; unfold i32AsU32; omega
    · unfold i32AsU32; omega
    · omega
    · omega
    · omega

theorem f64AsU32_ofNeg (q : ℚ) (h : q < 0) : f64AsU32 q = 0 := by
  unfold f64AsU32 ratTrunc
  rw [if_neg (not_le.mpr h)]
  have hc : ⌈q⌉ ≤ (0 : ℤ) := Int.ceil_le.mpr (by exact_mod_cast le_of_lt h)
  omega

/-- Evaluation of the round trip at 0000-01-01T00:00:01: it returns
0001-01-02T00:00:00. -/
theorem C2cex_eval :
    from_julian_date (to_julian_date ⟨0, 1, 1, 0, 0, 1⟩) = ⟨1, 1, 2, 0, 0, 0⟩ := by
  have hdn : dayNum ⟨0, 1, 1, 0, 0, 1⟩ = -29 := by decide
  have hsec : secOfDay ⟨0, 1, 1, 0, 0, 1⟩ = 1 := by decide
  rw [to_julian_date_eq, hdn, hsec]
  unfold from_julian_date
  dsimp only
  have hQ : (2400000.5 : ℚ) + ((86400 * (-29 - 678912) + 1 : ℤ) : ℚ) / 86400 - 2400000.5 =
      ((86400 * (-678941) + 1 : ℤ) : ℚ) / ((86400 : ℕ) : ℚ) := by push_cast; ring
  rw [hQ]
  have hplus : ((86400 * (-678941) + 1 : ℤ) : ℚ) / ((86400 : ℕ) : ℚ) + 678881 =
      -(((86400 * 60 - 1 : ℤ) : ℚ) / ((86400 : ℕ) : ℚ)) := by push_cast; ring
  have hposval : (0 : ℚ) < ((86400 * 60 - 1 : ℤ) : ℚ) / ((86400 : ℕ) : ℚ) := by
    apply div_pos
    · push_cast; norm_num
    · norm_num
  have hn : f64AsI32 (((86400 * (-678941) + 1 : ℤ) : ℚ) / ((86400 : ℕ) : ℚ) + 678881) =
      -59 := by
    rw [hplus]
    unfold f64AsI32 ratTrunc
    rw [if_neg (by linarith), Int.ceil_neg, Rat.floor_intCast_div_natCast]
    decide
  rw [hn]
  have hqneg : ((86400 * (-678941) + 1 : ℤ) : ℚ) / ((86400 : ℕ) : ℚ) =
      -(((86400 * 678941 - 1 : ℤ) : ℚ) / ((86400 : ℕ) : ℚ)) := by push_cast; ring
  have hq2 : (0 : ℚ) < ((86400 * 678941 - 1 : ℤ) : ℚ) / ((86400 : ℕ) : ℚ) := by
    apply div_pos
    · push_cast; norm_num
    · norm_num
  have htr : ratTrunc (((86400 * (-678941) + 1 : ℤ) : ℚ) / ((86400 : ℕ) : ℚ)) = -678940 := by
    unfold ratTrunc
    rw [hqneg, if_neg (by linarith), Int.ceil_neg, Rat.floor_intCast_div_natCast]
    decide
  rw [htr]
  have htime : ((86400 * (-678941) + 1 : ℤ) : ℚ) / ((86400 : ℕ) : ℚ) - ((-678940 : ℤ) : ℚ) =
      (-86399 : ℚ) / 86400 := by push_cast; field_simp; ring
  rw [htime]
  rw [f64AsU32_ofNeg ((-86399 : ℚ) / 86400 * 24) (by norm_num),
    f64AsU32_ofNeg ((-86399 : ℚ) / 86400 * 1440) (by norm_num),
    f64AsU32_ofNeg ((-86399 : ℚ) / 86400 * 86400) (by norm_num)]
  decide

/-- A concrete exact-arithmetic failure of the round trip (evidence for
the C2 code-bug verdict): 0000-01-01T00:00:01 is a valid chrono datetime
and comes back as 0001-01-02T00:00:00 — truncation toward zero of the
negative MJD misplaces both the date and the time.  The failure does not
depend on the exact-`f64` idealisation: the misplacement is 366 days and
86399 s, far above any rounding, and the real program fails on this input
the same way. -/
theorem rt_cex : ValidDT ⟨0, 1, 1, 0, 0, 1⟩ ∧
    from_julian_date (to_julian_date ⟨0, 1, 1, 0, 0, 1⟩) ≠ ⟨0, 1, 1, 0, 0, 1⟩ := by
  constructor
  · decide
  · rw [C2cex_eval]
    decide

theorem muZ_mono (a b : ℤ) (h : a ≤ b) : muZ a ≤ muZ b := by
  unfold muZ; omega

theorem fyZ_mono (a b : ℤ) (h : a ≤ b) : fyZ a ≤ fyZ b := by
  unfold fyZ; omega

theorem fyZ_step (y : ℤ) :
    fyZ (y + 1) = fyZ y + 365 + (if isGregLeap (y + 1) then 1 else 0) := by
  by_cases hL : isGregLeap (y + 1) <;>
    simp only [hL, if_true, if_false, reduceIte] <;>
    unfold isGregLeap at hL <;> unfold fyZ <;> omega

set_option maxHeartbeats 4000000 in
theorem dayNum_lt (y1 m1 D1 y2 m2 D2 : ℤ)
    (hm1 : 3 ≤ m1) (h14x : m1 ≤ 14) (hD1 : 1 ≤ D1) (hlen1 : D1 ≤ lenZ y1 m1)
    (hm2 : 3 ≤ m2) (h14y : m2 ≤ 14) (hD2 : 1 ≤ D2)
    (hlex : y1 < y2 ∨ (y1 = y2 ∧ (m1 < m2 ∨ (m1 = m2 ∧ D1 < D2)))) :
    fyZ y1 + muZ m1 + D1 < fyZ y2 + muZ m2 + D2 := by
  have hmub1 := muZ_bounds m1 hm1 h14x
  have hmub2 := muZ_bounds m2 hm2 h14y
  rcases hlex with hy | ⟨hy, hm | ⟨hm, hD⟩⟩
  · -- different shifted years
    have hup : muZ m1 + D1 ≤ 395 + (if isGregLeap (y1 + 1) then 1 else 0) := by
      unfold lenZ at hlen1
      by_cases h14 : m1 = 14
      · subst h14
        simp only [if_true, reduceIte] at hlen1
        by_cases hL : isGregLeap (y1 + 1) <;>
          simp only [hL, if_true, if_false, reduceIte] at hlen1 ⊢ <;>
          unfold muZ <;> omega
      · simp only [h14, if_false, reduceIte] at hlen1
        have h1 : muZ (m1 + 1) ≤ muZ 14 := muZ_mono _ _ (by omega)
        have h2 : muZ 14 = 367 := by decide
        have hsplit : (0 : ℤ) ≤ if isGregLeap (y1 + 1) then 1 else 0 := by
          split <;> omega
        omega
    have hstep := fyZ_step y1
    have hmono := fyZ_mono (y1 + 1) y2 (by omega)
    omega
  · -- same shifted year, different months
    subst hy
    unfold lenZ at hlen1
    have h14 : ¬(m1 = 14) := by omega
    simp only [h14, if_false, reduceIte] at hlen1
    have h1 : muZ (m1 + 1) ≤ muZ m2 := muZ_mono _ _ (by omega)
    omega
  · -- same month, different days
    subst hy hm
    omega

set_option maxHeartbeats 4000000 in
theorem date_lex_dayNum_lt (d1 d2 : GDateTime) (h1 : ValidDT d1) (h2 : ValidDT d2)
    (hdate : d1.year < d2.year ∨ (d1.year = d2.year ∧
      (d1.month < d2.month ∨ (d1.month = d2.month ∧ d1.day < d2.day)))) :
    dayNum d1 < dayNum d2 := by
  obtain ⟨hy1a, hy1b, hm1a, hm1b, hd1a, hd1b, -, -, -⟩ := h1
  obtain ⟨hy2a, hy2b, hm2a, hm2b, hd2a, hd2b, -, -, -⟩ := h2
  have hlen1 : (d1.day : ℤ) ≤ lenZ (shiftY d1) (shiftM d1) := by
    rw [← daysInMonth_lenZ d1 hm1a hm1b]; exact_mod_cast hd1b
  have h3a : 3 ≤ ((shiftM d1 : ℕ) : ℤ) := by unfold shiftM; split <;> push_cast <;> omega
  have h14a : ((shiftM d1 : ℕ) : ℤ) ≤ 14 := by unfold shiftM; split <;> push_cast <;> omega
  have h3b : 3 ≤ ((shiftM d2 : ℕ) : ℤ) := by unfold shiftM; split <;> push_cast <;> omega
  have h14b : ((shiftM d2 : ℕ) : ℤ) ≤ 14 := by unfold shiftM; split <;> push_cast <;> omega
  have hsh : shiftY d1 < shiftY d2 ∨ (shiftY d1 = shiftY d2 ∧
      (((shiftM d1 : ℕ) : ℤ) < ((shiftM d2 : ℕ) : ℤ) ∨
        (((shiftM d1 : ℕ) : ℤ) = ((shiftM d2 : ℕ) : ℤ) ∧ (d1.day : ℤ) < (d2.day : ℤ)))) := by
    unfold shiftY shiftM
    rcases hdate with hy | ⟨hy, hm | ⟨hm, hd⟩⟩ <;>
      by_cases e1 : d1.month ≤ 2 <;> by_cases e2 : d2.month ≤ 2 <;>
      simp only [e1, e2, if_true, if_false, reduceIte] <;> push_cast <;> omega
  unfold dayNum
  exact dayNum_lt (shiftY d1) _ _ (shiftY d2) _ _ h3a h14a
    (by exact_mod_cast hd1a) hlen1 h3b h14b (by exact_mod_cast hd2a) hsh

set_option maxHeartbeats 2000000 in
/-- C9: for every pair of valid Gregorian datetimes with `d1` earlier than
`d2` in calendar order, `to_julian_date d1 < to_julian_date d2`. -/
theorem to_julian_date_strictMono (d1 d2 : GDateTime) (h1 : ValidDT d1) (h2 : ValidDT d2)
    (hlt : dtLt d1 d2) : to_julian_date d1 < to_julian_date d2 := by
  have key : 86400 * (dayNum d1 - 678912) + secOfDay d1 <
      86400 * (dayNum d2 - 678912) + secOfDay d2 := by
    have hs1 : secOfDay d1 < 86400 := by
      obtain ⟨-, -, -, -, -, -, ha, hb, hc⟩ := h1; unfold secOfDay; omega
    have hs2 : 0 ≤ secOfDay d2 := by
      unfold secOfDay; omega
    rcases hlt with hy | ⟨hy, hm | ⟨hm, hd | ⟨hd, hrest⟩⟩⟩
    · have := date_lex_dayNum_lt d1 d2 h1 h2 (Or.inl hy)
      omega
    · have := date_lex_dayNum_lt d1 d2 h1 h2 (Or.inr ⟨hy, Or.inl hm⟩)
      omega
    · have := date_lex_dayNum_lt d1 d2 h1 h2 (Or.inr ⟨hy, Or.inr ⟨hm, hd⟩⟩)
      omega
    · have hdn : dayNum d1 = dayNum d2 := by
        unfold dayNum shiftY shiftM
        rw [hy, hm, hd]
      have hsec : secOfDay d1 < secOfDay d2 := by
        obtain ⟨-, -, -, -, -, -, -, hb1, hc1⟩ := h1
        obtain ⟨-, -, -, -, -, -, -, hb2, hc2⟩ := h2
        unfold secOfDay
        rcases hrest with hh | ⟨hh, hmi | ⟨hmi, hs⟩⟩ <;> omega
      omega
  rw [to_julian_date_eq d1, to_julian_date_eq d2]
  have hcast : ((86400 * (dayNum d1 - 678912) + secOfDay d1 : ℤ) : ℚ) <
      ((86400 * (dayNum d2 - 678912) + secOfDay d2 : ℤ) : ℚ) := by exact_mod_cast key
  have h86 : (0 : ℚ) < 86400 := by norm_num
  have := (div_lt_div_iff_of_pos_right h86).mpr hcast
  linarith

/-- The model-level round trip instantiated at 2023-06-01 12:34:56
(discharging `from_to_roundtrip`'s hypotheses at a concrete input). -/
theorem from_to_roundtrip_witness :
    ValidDT ⟨2023, 6, 1, 12, 34, 56⟩ ∧ 678912 ≤ dayNum ⟨2023, 6, 1, 12, 34, 56⟩ ∧
      from_julian_date (to_julian_date ⟨2023, 6, 1, 12, 34, 56⟩) = ⟨2023, 6, 1, 12, 34, 56⟩ :=
  ⟨by decide, by decide, from_to_roundtrip ⟨2023, 6, 1, 12, 34, 56⟩ (by decide) (by decide)⟩

/-- Witness for C9: 2023-01-01 00:00:00 maps strictly below 2023-06-01
12:00:00. -/
theorem to_julian_date_strictMono_witness :
    to_julian_date ⟨2023, 1, 1, 0, 0, 0⟩ < to_julian_date ⟨2023, 6, 1, 12, 0, 0⟩ :=
  to_julian_date_strictMono ⟨2023, 1, 1, 0, 0, 0⟩ ⟨2023, 6, 1, 12, 0, 0⟩
    (by decide) (by decide) (by decide)

/-! ## src/tempo.rs: Rokuyo -/

/-- The `Rokuyo` enum of src/tempo.rs. -/
inductive Rokuyo where
  | Taian
  | Shakku
  | Sensho
  | Tomobiki
  | Sempu
  | Butsumetsu
deriving DecidableEq

/-- `Rokuyo::to_japanese`. -/
def Rokuyo.to_japanese : Rokuyo → String
  | .Taian => "大安"
  | .Shakku => "赤口"
  | .Sensho => "先勝"
  | .Tomobiki => "友引"
  | .Sempu => "先負"
  | .Butsumetsu => "仏滅"

/-- `Rokuyo::to_number`. -/
def Rokuyo.to_number : Rokuyo → ℕ
  | .Sensho => 0
  | .Tomobiki => 1
  | .Sempu => 2
  | .Butsumetsu => 3
  | .Taian => 4
  | .Shakku => 5

/-- `Rokuyo::from_number` (`bail!` becomes `Except.error`). -/
def Rokuyo.from_number (index : ℕ) : Except String Rokuyo :=
  match index with
  | 0 => .ok .Sensho
  | 1 => .ok .Tomobiki
  | 2 => .ok .Sempu
  | 3 => .ok .Butsumetsu
  | 4 => .ok .Taian
  | 5 => .ok .Shakku
  | _ => .error "Out of rokuyo index"

/-- The `TempoDate` struct of src/tempo.rs. -/
structure TempoDate where
  year : ℕ
  leap_month : Bool
  month : ℕ
  day : ℕ
  jd : ℚ
deriving DecidableEq

/-- `TempoDate::default()`. -/
instance : Inhabited TempoDate := ⟨⟨1, false, 1, 1, 0⟩⟩

/-- Wrapping `usize` addition (release-mode Rust `+`). -/
def usizeAdd (a b : ℕ) : ℕ := (a + b) % 2 ^ 64

attribute [irreducible] usizeAdd usizeSub

/-- The index `(month + day - 2) % 6` computed by `TempoDate::rokuyo`, with
release-mode wrapping `usize` arithmetic. -/
def rokuyoIndex (month day : ℕ) : ℕ := usizeSub (usizeAdd month day) 2 % 6

/-- `TempoDate::rokuyo` before the `.expect`: the `from_number` call on the
wrapped index. -/
def TempoDate.rokuyo_checked (td : TempoDate) : Except String Rokuyo :=
  Rokuyo.from_number (rokuyoIndex td.month td.day)

/-- `TempoDate::rokuyo`.  The `.expect("Should be rounded by 6")` cannot
fire (the index is reduced mod 6, see `rokuyoIndex_lt6`); the `Taian`
default below is dead code standing in for the panic. -/
def TempoDate.rokuyo (td : TempoDate) : Rokuyo :=
  td.rokuyo_checked.toOption.getD .Taian

/-- The value `from_number` returns on each in-range index. -/
def rokuyoOfIndex : ℕ → Rokuyo
  | 0 => .Sensho
  | 1 => .Tomobiki
  | 2 => .Sempu
  | 3 => .Butsumetsu
  | 4 => .Taian
  | _ => .Shakku

theorem from_number_ok (i : ℕ) (h : i < 6) :
    Rokuyo.from_number i = Except.ok (rokuyoOfIndex i) ∧ (rokuyoOfIndex i).to_number = i := by
  interval_cases i <;> exact ⟨rfl, rfl⟩

theorem rokuyoIndex_lt6 (m d : ℕ) : rokuyoIndex m d < 6 :=
  Nat.mod_lt _ (by norm_num)

theorem rokuyoIndex_eq (m d : ℕ) (hm : m < 2 ^ 64) (hd : d < 2 ^ 64) (h2 : 2 ≤ m + d)
    (hnw : m + d - 2 < 2 ^ 64) :
    rokuyoIndex m d = (m + d - 2) % 6 := by
  unfold rokuyoIndex usizeAdd usizeSub
  rw [Nat.mod_mod_of_dvd _ dvd_rfl,
    show (2 : ℕ) % 2 ^ 64 = 2 from by norm_num]
  have hstep : ((m + d) % 2 ^ 64 + (2 ^ 64 - 2)) % 2 ^ 64 = m + d - 2 := by
    rcases Nat.lt_or_ge (m + d) (2 ^ 64) with hlt | hge
    · rw [Nat.mod_eq_of_lt hlt]
      omega
    · have h1 : (m + d) % 2 ^ 64 = m + d - 2 ^ 64 := by omega
      rw [h1]
      omega
  rw [hstep]

/-- Valid Tempo dates at the rokuyo interface: month `1..=12`, day
`1..=30` (a day is a 1-based offset within a lunar month of at most 30
days). -/
def ValidTempoDate (td : TempoDate) : Prop :=
  1 ≤ td.month ∧ td.month ≤ 12 ∧ 1 ≤ td.day ∧ td.day ≤ 30

instance (td : TempoDate) : Decidable (ValidTempoDate td) := by
  unfold ValidTempoDate; infer_instance

/-- C3: for every valid Tempo date, `rokuyo` returns without error the
enum value whose canonical index (Sensho 0, Tomobiki 1, Sempu 2,
Butsumetsu 3, Taian 4, Shakku 5, as fixed by `to_number`) is
`(month + day - 2) % 6`. -/
theorem rokuyo_of_valid (td : TempoDate) (hv : ValidTempoDate td) :
    td.rokuyo_checked = Except.ok td.rokuyo ∧
      td.rokuyo = rokuyoOfIndex ((td.month + td.day - 2) % 6) ∧
      td.rokuyo.to_number = (td.month + td.day - 2) % 6 := by
  obtain ⟨h1, h2, h3, h4⟩ := hv
  have hidx : rokuyoIndex td.month td.day = (td.month + td.day - 2) % 6 :=
    rokuyoIndex_eq _ _ (by omega) (by omega) (by omega) (by omega)
  have hok := from_number_ok ((td.month + td.day - 2) % 6) (Nat.mod_lt _ (by norm_num))
  have hch : td.rokuyo_checked = Except.ok (rokuyoOfIndex ((td.month + td.day - 2) % 6)) := by
    unfold TempoDate.rokuyo_checked
    rw [hidx, hok.1]
  have hrok : td.rokuyo = rokuyoOfIndex ((td.month + td.day - 2) % 6) := by
    unfold TempoDate.rokuyo
    rw [hch]
    rfl
  refine ⟨?_, hrok, ?_⟩
  · rw [hch, hrok]
  · rw [hrok, hok.2]

/-- Witness for C3: the Tempo date 2023/02/03 (month 2, day 3) has rokuyo
index `(2 + 3 - 2) % 6 = 3`, i.e. Butsumetsu. -/
theorem rokuyo_of_valid_witness :
    (⟨2023, false, 2, 3, 0⟩ : TempoDate).rokuyo_checked =
        Except.ok (⟨2023, false, 2, 3, 0⟩ : TempoDate).rokuyo ∧
      (⟨2023, false, 2, 3, 0⟩ : TempoDate).rokuyo = rokuyoOfIndex ((2 + 3 - 2) % 6) ∧
      (⟨2023, false, 2, 3, 0⟩ : TempoDate).rokuyo.to_number = (2 + 3 - 2) % 6 :=
  rokuyo_of_valid ⟨2023, false, 2, 3, 0⟩ (by decide)

/-! ## src/tempo.rs: the two locators

Both locators consume the ephemeris provider, which is not among the
staged sources; they are parameterised by it (`sun`, `moon`).  The
`calculate_leading_24sekki` loop has no iteration cap in the source, so
its embedding takes a fuel parameter; `calculate_leading_saku`'s loop is
capped by its own `iter_count` logic, and fuel 31 is proved sufficient.
-/

/-- `f64::rem_euclid` (for a positive modulus): the least nonnegative
remainder. -/
def ratMod (x y : ℚ) : ℚ := x - y * ((⌊x / y⌋ : ℤ) : ℚ)

/-- The signed-angle normalisation of `calculate_leading_24sekki`'s
`match`: fold a difference into `(-180, 180]` by one wrap. -/
def nrm (x : ℚ) : ℚ := if 180 < x then x - 360 else if x < -180 then x + 360 else x

/-- The loop of `calculate_leading_24sekki`: at `jd`, step back by
`delta_l * 365.2 / 360` until the step is at most one second of time. -/
def sekkiGo (sun : ℚ → ℚ) (l_sun0 : ℚ) : ℕ → ℚ → ℚ → Option ℚ
  | 0, _, _ => none
  | fuel + 1, jd, delta_t =>
    if |delta_t| ≤ 1 / 86400 then some jd
    else
      let delta_t' := nrm (sun jd - l_sun0) * 365.2 / 360
      sekkiGo sun l_sun0 fuel (jd - delta_t') delta_t'

/-- `calculate_leading_24sekki` of src/tempo.rs: fix the target bucket
`l_sun0` from the longitude at the input JD, then iterate. -/
def calculate_leading_24sekki (sun : ℚ → ℚ) (fuel : ℕ) (jd_now : ℚ) : Option (ℚ × ℚ) :=
  let l_sun0 : ℚ := 15 * ((⌊sun jd_now / 15⌋ : ℤ) : ℚ)
  (sekkiGo sun l_sun0 fuel jd_now 1).map (fun jd => (jd, l_sun0))

theorem sekkiGo_spec (sun : ℚ → ℚ) (l0 : ℚ) : ∀ (fuel : ℕ) (jd dt jdR : ℚ),
    sekkiGo sun l0 fuel jd dt = some jdR →
    (jdR = jd ∧ |dt| ≤ 1 / 86400) ∨
      (∃ p, jdR = p - nrm (sun p - l0) * 365.2 / 360 ∧
        |nrm (sun p - l0) * 365.2 / 360| ≤ 1 / 86400) := by
  intro fuel
  induction fuel with
  | zero => intro jd dt jdR h; exact absurd h (by simp [sekkiGo])
  | succ n ih =>
    intro jd dt jdR h
    rw [sekkiGo] at h
    by_cases hc : |dt| ≤ 1 / 86400
    · rw [if_pos hc] at h
      exact Or.inl ⟨(Option.some.injEq _ _ ▸ h).symm, hc⟩
    · rw [if_neg hc] at h
      rcases ih _ _ _ h with ⟨rfl, hsmall⟩ | hex
      · exact Or.inr ⟨jd, rfl, hsmall⟩
      · exact Or.inr hex

set_option maxHeartbeats 1000000 in
/-- C6 (amended): the returned longitude bucket is `15 ⌊sun(jd_now)/15⌋`,
fixed once from the input JD and never recomputed; and on return the JD is
one final sub-second step away from an evaluation point `p` whose
normalised longitude difference to the bucket is below the convergence
tolerance.  (The difference at the returned JD itself is not constrained
for a general ephemeris provider: see the counterexample.) -/
theorem sekki_bucket (sun : ℚ → ℚ) (fuel : ℕ) (jd_now : ℚ) :
    match calculate_leading_24sekki sun fuel jd_now with
    | some (jd, b) =>
        b = 15 * ((⌊sun jd_now / 15⌋ : ℤ) : ℚ) ∧
        ∃ p, jd = p - nrm (sun p - b) * 365.2 / 360 ∧
          |nrm (sun p - b) * 365.2 / 360| ≤ 1 / 86400
    | none => True := by
  unfold calculate_leading_24sekki
  dsimp only
  cases hs : sekkiGo sun (15 * ((⌊sun jd_now / 15⌋ : ℤ) : ℚ)) fuel jd_now 1 with
  | none => exact trivial
  | some jd =>
    refine ⟨rfl, ?_⟩
    rcases sekkiGo_spec sun _ fuel jd_now 1 jd hs with ⟨rfl, hsmall⟩ | hex
    · exact absurd hsmall (by norm_num)
    · exact hex

/-- A contract-satisfying ephemeris (total, continuous, range in
`[0, 359]`) that makes the solar-term locator stop, after its one
sub-second step, at a JD whose longitude sits in a different bucket. -/
def cexSun (jd : ℚ) : ℚ :=
  max 0 (min 359 (1 / 87648 + (-29376000 + 900 / 913) * jd))

theorem cexSun_at0 : cexSun 0 = 1 / 87648 := by
  unfold cexSun; norm_num

theorem cexSun_atRet : cexSun (-(1 / 86400)) = 340 := by
  unfold cexSun; norm_num

set_option maxHeartbeats 1000000 in
/-- C6 counterexample: with `cexSun`, the locator started at JD 0 fixes
bucket 0 and returns JD `-1/86400`, where the ephemeris longitude is 340°:
its floor-to-15° is 330, not the returned bucket, and the difference is
far beyond the convergence tolerance. -/
theorem sekki_bucket_cex :
    calculate_leading_24sekki cexSun 2 0 = some (-(1 / 86400 : ℚ), 0) ∧
      cexSun (-(1 / 86400 : ℚ)) = 340 ∧
      ¬(15 * ((⌊cexSun (-(1 / 86400 : ℚ)) / 15⌋ : ℤ) : ℚ) = 0) := by
  refine ⟨?_, cexSun_atRet, ?_⟩
  · unfold calculate_leading_24sekki
    dsimp only
    have hb : (15 : ℚ) * ((⌊cexSun 0 / 15⌋ : ℤ) : ℚ) = 0 := by
      rw [cexSun_at0]
      norm_num
    rw [hb]
    have h1 : sekkiGo cexSun 0 2 0 1 = sekkiGo cexSun 0 1 (-(1 / 86400)) (1 / 86400) := by
      rw [sekkiGo]
      rw [if_neg (by norm_num)]
      have hd : nrm (cexSun 0 - 0) * 365.2 / 360 = 1 / 86400 := by
        rw [cexSun_at0]
        unfold nrm
        norm_num
      rw [hd]
      norm_num
    rw [h1, sekkiGo, if_pos (by rw [abs_of_nonneg] ; norm_num), Option.map_some']
  · rw [cexSun_atRet]
    norm_num

/-! ## C7: the solar-term locator's returned JD versus its input JD -/

theorem sekkiGo_le (sun : ℚ → ℚ) (l0 : ℚ) (h : ∀ x, 0 ≤ nrm (sun x - l0)) :
    ∀ (fuel : ℕ) (jd dt jdR : ℚ), sekkiGo sun l0 fuel jd dt = some jdR → jdR ≤ jd := by
  intro fuel
  induction fuel with
  | zero => intro jd dt jdR hcall; exact absurd hcall (by simp [sekkiGo])
  | succ n ih =>
    intro jd dt jdR hcall
    rw [sekkiGo] at hcall
    by_cases hc : |dt| ≤ 1 / 86400
    · rw [if_pos hc] at hcall
      exact le_of_eq (Option.some.injEq _ _ ▸ hcall).symm
    · rw [if_neg hc] at hcall
      have hstep : 0 ≤ nrm (sun jd - l0) * 365.2 / 360 :=
        div_nonneg (mul_nonneg (h jd) (by norm_num)) (by norm_num)
      exact le_trans (ih _ _ _ hcall) (by linarith)

set_option maxHeartbeats 1000000 in
/-- C7 (amended): when every step the iteration can take is a step
backwards in time — the normalised longitude difference to the fixed
bucket is nonnegative everywhere, as for the true sun's longitude between
the bucket's start and the input JD — the returned JD is at most the input
JD.  For a general ephemeris provider the claim fails: a step with
negative normalised difference moves the JD forward, see the
counterexample. -/
theorem sekki_le (sun : ℚ → ℚ) (fuel : ℕ) (jd_now : ℚ)
    (h : ∀ x, 0 ≤ nrm (sun x - 15 * ((⌊sun jd_now / 15⌋ : ℤ) : ℚ))) :
    match calculate_leading_24sekki sun fuel jd_now with
    | some (jd, _) => jd ≤ jd_now
    | none => True := by
  unfold calculate_leading_24sekki
  dsimp only
  cases hs : sekkiGo sun (15 * ((⌊sun jd_now / 15⌋ : ℤ) : ℚ)) fuel jd_now 1 with
  | none => exact trivial
  | some jd => exact sekkiGo_le sun _ h fuel jd_now 1 jd hs

/-- A constant ephemeris pinned to an exact bucket boundary: every step of
the locator is zero. -/
def constSun : ℚ → ℚ := fun _ => 30

theorem constSun_eq (x : ℚ) : constSun x = 30 := rfl

set_option maxHeartbeats 1000000 in
/-- Witness for C7 at `constSun`, fuel 2, input JD 5: the locator
terminates at JD 5, and the amended theorem applies (every step is 0). -/
theorem sekki_le_witness :
    calculate_leading_24sekki constSun 2 5 = some (5, 30) ∧
      (match calculate_leading_24sekki constSun 2 5 with
        | some (jd, _) => jd ≤ 5
        | none => True) := by
  refine ⟨?_, sekki_le constSun 2 5 ?_⟩
  · unfold calculate_leading_24sekki
    dsimp only
    have hb : (15 : ℚ) * ((⌊constSun 5 / 15⌋ : ℤ) : ℚ) = 30 := by
      rw [constSun_eq]; norm_num
    rw [hb]
    have h1 : sekkiGo constSun 30 2 5 1 = sekkiGo constSun 30 1 5 0 := by
      rw [sekkiGo, if_neg (by norm_num)]
      have hd : nrm (constSun 5 - 30) * 365.2 / 360 = 0 := by
        rw [constSun_eq]; unfold nrm; norm_num
      rw [hd]; norm_num
    rw [h1, sekkiGo, if_pos (by norm_num), Option.map_some']
  · intro x
    rw [constSun_eq, constSun_eq]
    have hb : (15 : ℚ) * ((⌊(30 : ℚ) / 15⌋ : ℤ) : ℚ) = 30 := by norm_num
    rw [hb]
    unfold nrm
    norm_num

/-- A contract-satisfying ephemeris (total, continuous, range in
`[0, 359]`) that drives the locator started at JD 0 to a strictly later
JD: the second step has normalised difference `-100`, overshooting
forward past the input. -/
def cexSun7 (jd : ℚ) : ℚ :=
  max 0 (min 359 (if jd ≤ 0 then 14 - 110700 / 6391 * jd else 14 - 6300 / 39259 * jd))

set_option maxHeartbeats 1000000 in
/-- C7 counterexample: with `cexSun7`, the locator started at JD 0
terminates and returns JD `39259/450 ≈ 87.2`, which is greater than the
input JD 0. -/
theorem sekki_le_cex :
    calculate_leading_24sekki cexSun7 4 0 = some (39259 / 450, 0) ∧
      ¬((39259 : ℚ) / 450 ≤ 0) := by
  constructor
  · unfold calculate_leading_24sekki
    dsimp only
    have h0 : cexSun7 0 = 14 := by unfold cexSun7; norm_num
    have hb : (15 : ℚ) * ((⌊cexSun7 0 / 15⌋ : ℤ) : ℚ) = 0 := by rw [h0]; norm_num
    rw [hb]
    have h1 : sekkiGo cexSun7 0 4 0 1 = sekkiGo cexSun7 0 3 (-(6391 / 450)) (6391 / 450) := by
      rw [sekkiGo, if_neg (by norm_num)]
      have hd : nrm (cexSun7 0 - 0) * 365.2 / 360 = 6391 / 450 := by
        rw [h0]; unfold nrm; norm_num
      rw [hd]; norm_num
    have h2 : sekkiGo cexSun7 0 3 (-(6391 / 450)) (6391 / 450) =
        sekkiGo cexSun7 0 2 (39259 / 450) (-(913 / 9)) := by
      rw [sekkiGo, if_neg (by rw [abs_of_nonneg] <;> norm_num)]
      have hs : cexSun7 (-(6391 / 450)) = 260 := by unfold cexSun7; norm_num
      have hd : nrm (cexSun7 (-(6391 / 450)) - 0) * 365.2 / 360 = -(913 / 9) := by
        rw [hs]; unfold nrm; norm_num
      rw [hd]; norm_num
    have h3 : sekkiGo cexSun7 0 2 (39259 / 450) (-(913 / 9)) =
        sekkiGo cexSun7 0 1 (39259 / 450) 0 := by
      rw [sekkiGo, if_neg (by rw [abs_of_nonpos] <;> norm_num)]
      have hs : cexSun7 (39259 / 450) = 0 := by unfold cexSun7; norm_num
      have hd : nrm (cexSun7 (39259 / 450) - 0) * 365.2 / 360 = 0 := by
        rw [hs]; unfold nrm; norm_num
      rw [hd]; norm_num
    rw [h1, h2, h3, sekkiGo, if_pos (by norm_num), Option.map_some']
  · norm_num

/-! ## C1: `calculate_leading_saku` of src/tempo.rs

The loop body's `delta_l` pipeline, the `iter_count >= 30` bail-out and
the `iter_count == 15` restart are embedded faithfully; the fuel
parameter is an artifact of the embedding and fuel 31 is proved to be
never exhausted (the `iter_count` logic caps the loop at 31 bodies).
-/

/-- The `delta_l` pipeline of one body of `calculate_leading_saku`. -/
def sakuDelta (sun moon : ℚ → ℚ) (iter : ℕ) (jd : ℚ) : ℚ :=
  let l_sun := sun jd
  let l_moon := moon jd
  let d0 := l_moon - l_sun
  let d1 := if iter = 0 ∧ d0 < 0 then ratMod d0 360 else d0
  let d2 := if (0 ≤ l_sun ∧ l_sun < 20) ∧ 300 ≤ l_moon then 360 - ratMod d1 360 else d1
  if 40 < |d2| then ratMod d2 360 else d2

/-- The loop of `calculate_leading_saku`: exit when the last step is at
most one second, bail out with the source's error when the body runs at
`iter_count ≥ 30`, restart from `jd_now - 26` after the body at
`iter_count = 15`. -/
def sakuGo (sun moon : ℚ → ℚ) (jd_now : ℚ) : ℕ → ℚ → ℚ → ℕ → Option (Except String ℚ)
  | 0, _, _, _ => none
  | fuel + 1, jd, delta_t, iter =>
    if |delta_t| ≤ 1 / 86400 then some (Except.ok jd)
    else
      let dt := sakuDelta sun moon iter jd * 29.530589 / 360
      if 30 ≤ iter then some (Except.error "Saku calculation cannot be finished")
      else
        let jd2 := if iter = 15 then jd_now - 26 else jd - dt
        sakuGo sun moon jd_now fuel jd2 dt (iter + 1)

/-- `calculate_leading_saku` of src/tempo.rs. -/
def calculate_leading_saku (sun moon : ℚ → ℚ) (jd_now : ℚ) : Option (Except String ℚ) :=
  sakuGo sun moon jd_now 31 jd_now 1 0

/-- Instrumentation record of one run of the saku loop: its result, the
number of loop bodies executed, the number of restarts taken, and the JD
the last restart jumped to. -/
structure SakuRun where
  result : Except String ℚ
  bodies : ℕ
  restarts : ℕ
  restartJd : Option ℚ

/-- The saku loop instrumented with body/restart counters; `iter` doubles
as the count of bodies already executed. -/
def sakuGoI (sun moon : ℚ → ℚ) (jd_now : ℚ) :
    ℕ → ℚ → ℚ → ℕ → ℕ → Option ℚ → Option SakuRun
  | 0, _, _, _, _, _ => none
  | fuel + 1, jd, delta_t, iter, r, rjd =>
    if |delta_t| ≤ 1 / 86400 then some ⟨Except.ok jd, iter, r, rjd⟩
    else
      let dt := sakuDelta sun moon iter jd * 29.530589 / 360
      if 30 ≤ iter then
        some ⟨Except.error "Saku calculation cannot be finished", iter + 1, r, rjd⟩
      else if iter = 15 then
        sakuGoI sun moon jd_now fuel (jd_now - 26) dt (iter + 1) (r + 1) (some (jd_now - 26))
      else
        sakuGoI sun moon jd_now fuel (jd - dt) dt (iter + 1) r rjd

theorem sakuGoI_spec (sun moon : ℚ → ℚ) (jd_now : ℚ) :
    ∀ (fuel : ℕ) (jd dt : ℚ) (iter r : ℕ) (rjd : Option ℚ),
    31 ≤ iter + fuel → iter ≤ 30 →
    (iter ≤ 15 → r = 0) → (16 ≤ iter → r = 1) →
    (r = 1 → rjd = some (jd_now - 26)) →
    ∃ run : SakuRun,
      sakuGoI sun moon jd_now fuel jd dt iter r rjd = some run ∧
      sakuGo sun moon jd_now fuel jd dt iter = some run.result ∧
      iter ≤ run.bodies ∧ run.bodies ≤ 31 ∧
      ((∃ e, run.result = Except.error e) ↔ run.bodies = 31) ∧
      run.restarts ≤ 1 ∧
      (run.restarts = 1 ↔ 16 ≤ run.bodies) ∧
      (run.restarts = 1 → run.restartJd = some (jd_now - 26)) := by
  intro fuel
  induction fuel with
  | zero =>
    intro jd dt iter r rjd hfuel hiter _ _ _
    omega
  | succ n ih =>
    intro jd dt iter r rjd hfuel hiter hr0 hr1 hrjd
    rw [sakuGoI, sakuGo]
    have hriff : r = 1 ↔ 16 ≤ iter := by
      rcases le_or_lt iter 15 with h | h
      · have := hr0 h; omega
      · have := hr1 h; omega
    by_cases hc : |dt| ≤ 1 / 86400
    · rw [if_pos hc, if_pos hc]
      have herr : (∃ e, (Except.ok jd : Except String ℚ) = Except.error e) ↔ iter = 31 := by
        constructor
        · rintro ⟨e, he⟩
          exact absurd he (by simp)
        · intro h31
          exact absurd h31 (by omega)
      have hrle : r ≤ 1 := by omega
      have hb31 : iter ≤ 31 := by omega
      exact ⟨⟨Except.ok jd, iter, r, rjd⟩, rfl, rfl, le_refl _, hb31, herr, hrle,
        hriff, hrjd⟩
    · rw [if_neg hc, if_neg hc]
      by_cases h30 : 30 ≤ iter
      · rw [if_pos h30, if_pos h30]
        have hre : r = 1 := hr1 (by omega)
        have herr : (∃ e,
            (Except.error "Saku calculation cannot be finished" : Except String ℚ) =
              Except.error e) ↔ iter + 1 = 31 := by
          constructor
          · intro _; omega
          · intro _; exact ⟨_, rfl⟩
        have hiff2 : r = 1 ↔ 16 ≤ iter + 1 := by omega
        have hb1 : iter ≤ iter + 1 := by omega
        have hb2 : iter + 1 ≤ 31 := by omega
        have hrle : r ≤ 1 := by omega
        exact ⟨⟨Except.error "Saku calculation cannot be finished", iter + 1, r, rjd⟩,
          rfl, rfl, hb1, hb2, herr, hrle, hiff2, hrjd⟩
      · rw [if_neg h30, if_neg h30]
        by_cases h15 : iter = 15
        · rw [if_pos h15, if_pos h15]
          have hre : r = 0 := hr0 (by omega)
          obtain ⟨run, hI, hG, hb1, hb2, herr, hres1, hres2, hres3⟩ :=
            ih (jd_now - 26) (sakuDelta sun moon iter jd * 29.530589 / 360)
              (iter + 1) (r + 1) (some (jd_now - 26))
              (by omega) (by omega) (by omega) (by omega) (by intro _; rfl)
          exact ⟨run, hI, hG, by omega, hb2, herr, hres1, hres2, hres3⟩
        · rw [if_neg h15, if_neg h15]
          obtain ⟨run, hI, hG, hb1, hb2, herr, hres1, hres2, hres3⟩ :=
            ih (jd - sakuDelta sun moon iter jd * 29.530589 / 360)
              (sakuDelta sun moon iter jd * 29.530589 / 360)
              (iter + 1) r rjd
              (by omega) (by omega) (by omega) (by omega) hrjd
          exact ⟨run, hI, hG, by omega, hb2, herr, hres1, hres2, hres3⟩

set_option maxHeartbeats 1000000 in
/-- C1: the saku locator always terminates with fuel 31 (at most 31 loop
bodies); its instrumented run agrees with `calculate_leading_saku`; the
run errors exactly when all 31 bodies ran without convergence; at most
one restart is taken, a restart is taken exactly when the loop gets past
its 16th body, and the restart jumps to the original input JD minus 26
days. -/
theorem saku_termination (sun moon : ℚ → ℚ) (jd_now : ℚ) :
    match sakuGoI sun moon jd_now 31 jd_now 1 0 0 none with
    | some run =>
        calculate_leading_saku sun moon jd_now = some run.result ∧
        run.bodies ≤ 31 ∧
        ((∃ e, run.result = Except.error e) ↔ run.bodies = 31) ∧
        run.restarts ≤ 1 ∧
        (run.restarts = 1 ↔ 16 ≤ run.bodies) ∧
        (run.restarts = 1 → run.restartJd = some (jd_now - 26))
    | none => False := by
  obtain ⟨run, hI, hG, _, hb2, herr, hres1, hres2, hres3⟩ :=
    sakuGoI_spec sun moon jd_now 31 jd_now 1 0 0 none
      (by omega) (by omega) (by omega) (by omega) (by omega)
  rw [hI]
  exact ⟨hG, hb2, herr, hres1, hres2, hres3⟩

/-! ## src/tempo.rs: the calendar assembler (`TempoDate::from_gregory_date`)

Steps 1 and 2 walk the locators back to the winter solstice (longitude
bucket index 18) and forward to the rain-water term (index 22); the
source's walk loops are unbounded, so they take fuel.  Step 3 pairs each
lunar month (a window of two consecutive saku JDs) with the chuki inside
it, step 3's second loop resolves leap-month numbers, and step 4 picks
the month containing the input date and fixes day and year.
-/

/-- A chrono `Date` (a datetime's time-of-day dropped), as the assembler
compares and re-converts them. -/
structure DateOnly where
  year : ℤ
  month : ℕ
  day : ℕ
deriving DecidableEq

/-- chrono's `Date` order: lexicographic on (year, month, day). -/
def dateLt (a b : DateOnly) : Prop :=
  a.year < b.year ∨ (a.year = b.year ∧
    (a.month < b.month ∨ (a.month = b.month ∧ a.day < b.day)))

instance (a b : DateOnly) : Decidable (dateLt a b) := by unfold dateLt; infer_instance

def dateLe (a b : DateOnly) : Prop := a = b ∨ dateLt a b

instance (a b : DateOnly) : Decidable (dateLe a b) := by unfold dateLe; infer_instance

/-- `.date()` on a datetime. -/
def GDateTime.date (d : GDateTime) : DateOnly := ⟨d.year, d.month, d.day⟩

/-- `date.and_hms(0, 0, 0)`. -/
def dtOfDate (d : DateOnly) : GDateTime := ⟨d.year, d.month, d.day, 0, 0, 0⟩

/-- `from_julian_date(jd + 0.375).date()`: the assembler's JD-to-civil-day
conversion (0.375 day = the 09:00 JST offset). -/
def civilDate (jd : ℚ) : DateOnly := (from_julian_date (jd + 0.375)).date

/-- The chuki filter of step 3: solar terms whose longitude, `as usize`,
is a multiple of 30 degrees. -/
def chukisOf (sekkis : List (ℚ × ℚ)) : List (ℚ × ℚ) :=
  sekkis.filter (fun x => f64AsUsize x.2 % 30 == 0)

/-- Step 3's month-number mapping on `longitude as usize / 30`. -/
def chukiMonth (o : ℕ) : ℕ :=
  if o = 0 then 2
  else if o = 3 then 5
  else if o = 6 then 8
  else if o = 9 then 11
  else (o + 1) % 12 + 1

/-- Whether a chuki's civil date falls in the saku window `[s0, s1)`
(Rust's `(saku_start..saku_end).contains(&chuki_date)`). -/
def inWindow (s0 s1 : ℚ) (c : ℚ × ℚ) : Prop :=
  dateLe (civilDate s0) (civilDate c.1) ∧ dateLt (civilDate c.1) (civilDate s1)

instance (s0 s1 : ℚ) (c : ℚ × ℚ) : Decidable (inWindow s0 s1 c) := by
  unfold inWindow; infer_instance

/-- One `tempo_months` entry of step 3: the first chuki inside the saku
window names the month; no chuki marks it leap with its number left 0.
Fields the source does not set keep `TempoDate::default()`'s values. -/
def assignOne (chukis : List (ℚ × ℚ)) (s0 s1 : ℚ) : TempoDate :=
  let sjd := to_julian_date (dtOfDate (civilDate s0))
  match chukis.find? (fun c => decide (inWindow s0 s1 c)) with
  | some c => ⟨1, false, chukiMonth (f64AsUsize c.2 / 30), 1, sjd⟩
  | none => ⟨1, true, 0, 1, sjd⟩

/-- Step 3 over consecutive saku pairs (`sakus.windows(2)`). -/
def tempoMonths (chukis : List (ℚ × ℚ)) : List ℚ → List TempoDate
  | s0 :: s1 :: rest => assignOne chukis s0 s1 :: tempoMonths chukis (s1 :: rest)
  | _ => []

/-- The leap-resolution sweep, after the first entry: a leap month takes
the month number of the entry just before it, as already updated by the
sweep (`prev` is the updated predecessor). -/
def resolveLeapAux (prev : TempoDate) : List TempoDate → List TempoDate
  | [] => []
  | t :: rest =>
    let t' := if t.leap_month then { t with month := prev.month } else t
    t' :: resolveLeapAux t' rest

/-- The leap-resolution sweep of step 3 (`for i in 1..len`): the entry at
index 0 is never rewritten. -/
def resolveLeap : List TempoDate → List TempoDate
  | [] => []
  | t :: rest => t :: resolveLeapAux t rest

/-- Step 4: of the months starting no later than `jd_date`, take the last;
set its day to the JD offset plus 1 and apply the year rule (`y as usize
- 1` is wrapping `usize` arithmetic on the `i32` year). -/
def finishTempo (jst_year : ℤ) (jst_month : ℕ) (jd_date : ℚ)
    (months : List TempoDate) : Option TempoDate :=
  ((months.filter (fun m => decide (m.jd ≤ jd_date))).getLast?).map (fun tm =>
    { tm with
      day := f64AsUsize (jd_date - tm.jd) + 1,
      year := if 10 ≤ tm.month ∧ jst_month < tm.month
        then usizeSub (i32AsUsize jst_year) 1 else i32AsUsize jst_year })

/-- Step 1-b: walk solar terms back until the winter-solstice bucket
(index 18), prepending; the walked-from term stays the list's last. -/
def sekkiBackLoop (sun : ℚ → ℚ) (sfuel : ℕ) :
    ℕ → (ℚ × ℚ) → List (ℚ × ℚ) → Option (List (ℚ × ℚ))
  | 0, _, _ => none
  | fuel + 1, last, acc =>
    if f64AsUsize last.2 / 15 = 18 then some acc
    else (calculate_leading_24sekki sun sfuel (last.1 - 13)).bind
      (fun prev => sekkiBackLoop sun sfuel fuel prev (prev :: acc))

/-- Step 1-c: walk solar terms forward until the rain-water bucket
(index 22), appending. -/
def sekkiFwdLoop (sun : ℚ → ℚ) (sfuel : ℕ) :
    ℕ → (ℚ × ℚ) → List (ℚ × ℚ) → Option (List (ℚ × ℚ))
  | 0, _, _ => none
  | fuel + 1, last, acc =>
    if f64AsUsize last.2 / 15 = 22 then some acc
    else (calculate_leading_24sekki sun sfuel (last.1 + 18)).bind
      (fun next => sekkiFwdLoop sun sfuel fuel next (acc ++ [next]))

/-- Step 2-b: walk sakus back past the winter solstice, prepending. -/
def sakuBackLoop (sun moon : ℚ → ℚ) (jd_toji : ℚ) :
    ℕ → ℚ → List ℚ → Option (Except String (List ℚ))
  | 0, _, _ => none
  | fuel + 1, last, acc =>
    if last ≤ jd_toji then some (Except.ok acc)
    else (calculate_leading_saku sun moon (last - 27)).bind (fun r =>
      match r with
      | Except.error e => some (Except.error e)
      | Except.ok prev => sakuBackLoop sun moon jd_toji fuel prev (prev :: acc))

/-- Step 2-c: walk sakus forward to the rain-water term, appending, with
the source's too-close re-aim (`< 26` days apart retries from 35). -/
def sakuFwdLoop (sun moon : ℚ → ℚ) (jd_usui : ℚ) :
    ℕ → ℚ → List ℚ → Option (Except String (List ℚ))
  | 0, _, _ => none
  | fuel + 1, last, acc =>
    if jd_usui ≤ last then some (Except.ok acc)
    else (calculate_leading_saku sun moon (last + 30)).bind (fun r1 =>
      match r1 with
      | Except.error e => some (Except.error e)
      | Except.ok n1 =>
        if |n1 - last| < 26 then
          (calculate_leading_saku sun moon (last + 35)).bind (fun r2 =>
            match r2 with
            | Except.error e => some (Except.error e)
            | Except.ok n2 => sakuFwdLoop sun moon jd_usui fuel n2 (acc ++ [n2]))
        else sakuFwdLoop sun moon jd_usui fuel n1 (acc ++ [n1]))

/-- `TempoDate::from_gregory_date` of src/tempo.rs, parameterised by the
ephemeris and by fuel for the unbounded loops.  `none` covers fuel
exhaustion and the source's `.expect` panics (embedding artifacts);
`some (Except.error e)` is the source's error path. -/
def from_gregory_date (sun moon : ℚ → ℚ) (fuel : ℕ) (jst_date : DateOnly) :
    Option (Except String TempoDate) :=
  let jd := to_julian_date (dtOfDate jst_date)
  let jd_date := to_julian_date (dtOfDate (civilDate jd))
  (calculate_leading_24sekki sun fuel jd).bind (fun first_sekki =>
  (sekkiBackLoop sun fuel fuel first_sekki [first_sekki]).bind (fun sekkis1 =>
  (sekkiFwdLoop sun fuel fuel first_sekki sekkis1).bind (fun sekkis =>
  sekkis.head?.bind (fun toji =>
  sekkis.getLast?.bind (fun usui =>
  (calculate_leading_saku sun moon jd).bind (fun r1 =>
  match r1 with
  | Except.error e => some (Except.error e)
  | Except.ok first_saku =>
    (sakuBackLoop sun moon toji.1 fuel first_saku [first_saku]).bind (fun r2 =>
    match r2 with
    | Except.error e => some (Except.error e)
    | Except.ok sakus1 =>
      (sakuFwdLoop sun moon usui.1 fuel first_saku sakus1).bind (fun r3 =>
      match r3 with
      | Except.error e => some (Except.error e)
      | Except.ok sakus =>
        (finishTempo jst_date.year jst_date.month jd_date
          (resolveLeap (tempoMonths (chukisOf sekkis) sakus))).map Except.ok))))))))

set_option maxHeartbeats 1000000 in
/-- C4: if some chuki's civil date falls in the saku window, the month is
numbered by the fixed mapping on `longitude as usize / 30` (0 → 2, 3 → 5,
6 → 8, 9 → 11, otherwise `(o + 1) % 12 + 1`) and is not leap; if none
does, the month is marked leap with its number left 0. -/
theorem chuki_assignment (chukis : List (ℚ × ℚ)) (s0 s1 : ℚ) :
    ((∀ c ∈ chukis, ¬ inWindow s0 s1 c) →
        (assignOne chukis s0 s1).month = 0 ∧
        (assignOne chukis s0 s1).leap_month = true) ∧
    ((∃ c ∈ chukis, inWindow s0 s1 c) →
        ∃ c ∈ chukis, inWindow s0 s1 c ∧
          (assignOne chukis s0 s1).month = chukiMonth (f64AsUsize c.2 / 30) ∧
          (assignOne chukis s0 s1).leap_month = false) ∧
    chukiMonth 0 = 2 ∧ chukiMonth 3 = 5 ∧ chukiMonth 6 = 8 ∧ chukiMonth 9 = 11 ∧
    ∀ o : ℕ, o ≠ 0 → o ≠ 3 → o ≠ 6 → o ≠ 9 → chukiMonth o = (o + 1) % 12 + 1 := by
  refine ⟨?_, ?_, rfl, rfl, rfl, rfl, ?_⟩
  · intro h
    have hf : chukis.find? (fun c => decide (inWindow s0 s1 c)) = none := by
      rw [List.find?_eq_none]
      intro c hc
      simpa using h c hc
    unfold assignOne
    rw [hf]
    exact ⟨rfl, rfl⟩
  · rintro ⟨c0, hc0, hw0⟩
    cases hf : chukis.find? (fun c => decide (inWindow s0 s1 c)) with
    | none =>
      have := List.find?_eq_none.mp hf c0 hc0
      simp at this
      exact absurd hw0 this
    | some c =>
      refine ⟨c, List.mem_of_find?_eq_some hf, ?_, ?_, ?_⟩
      · have := List.find?_some hf
        simpa using this
      · unfold assignOne
        rw [hf]
      · unfold assignOne
        rw [hf]
  · intro o h0 h3 h6 h9
    simp [chukiMonth, h0, h3, h6, h9]

set_option maxHeartbeats 1000000 in
/-- C5: the returned Tempo year is the input's Gregorian year (as
`usize`) unless the resolved Tempo month is at least 10 and greater than
the input's Gregorian month, in which case it is the Gregorian year minus
1 (wrapping `usize` arithmetic, which is plain subtraction for any
realistic year); in particular a Gregorian month-1 date resolved to Tempo
month 12 gets the previous year. -/
theorem year_rule (jst_year : ℤ) (jst_month : ℕ) (jd_date : ℚ)
    (months : List TempoDate) :
    (match finishTempo jst_year jst_month jd_date months with
      | some td =>
          td.year = (if 10 ≤ td.month ∧ jst_month < td.month
            then usizeSub (i32AsUsize jst_year) 1 else i32AsUsize jst_year) ∧
          (jst_month = 1 → td.month = 12 →
            td.year = usizeSub (i32AsUsize jst_year) 1)
      | none => True) ∧
    (1 ≤ jst_year → jst_year < 2 ^ 31 →
      usizeSub (i32AsUsize jst_year) 1 = jst_year.toNat - 1) := by
  constructor
  · unfold finishTempo
    cases hl : (months.filter (fun m => decide (m.jd ≤ jd_date))).getLast? with
    | none => exact trivial
    | some tm =>
      refine ⟨rfl, ?_⟩
      intro h1 h2
      have hm : tm.month = 12 := h2
      show (if 10 ≤ tm.month ∧ jst_month < tm.month
        then usizeSub (i32AsUsize jst_year) 1 else i32AsUsize jst_year) =
          usizeSub (i32AsUsize jst_year) 1
      rw [hm, h1, if_pos (by omega : (10 : ℕ) ≤ 12 ∧ (1 : ℕ) < 12)]
  · intro h1 h2
    unfold usizeSub i32AsUsize
    omega

theorem resolveLeapAux_chain (l : List TempoDate) :
    ∀ (prev : TempoDate) (i : ℕ),
      match (prev :: resolveLeapAux prev l)[i + 1]?, (prev :: resolveLeapAux prev l)[i]? with
      | some t, some p => t.leap_month = true → t.month = p.month
      | _, _ => True := by
  induction l with
  | nil =>
    intro prev i
    simp [resolveLeapAux]
  | cons t rest ih =>
    intro prev i
    rw [resolveLeapAux]
    cases i with
    | zero =>
      by_cases ht : t.leap_month
      · simp [ht]
      · simp [ht]
    | succ j =>
      have h := ih (if t.leap_month then { t with month := prev.month } else t) j
      simpa using h

theorem resolveLeapAux_length (l : List TempoDate) :
    ∀ prev, (resolveLeapAux prev l).length = l.length := by
  induction l with
  | nil => intro prev; rfl
  | cons t rest ih => intro prev; simp [resolveLeapAux, ih]

theorem resolveLeapAux_flag (l : List TempoDate) :
    ∀ (prev : TempoDate) (i : ℕ),
      Option.map TempoDate.leap_month (resolveLeapAux prev l)[i]? =
        Option.map TempoDate.leap_month l[i]? := by
  induction l with
  | nil => intro prev i; simp [resolveLeapAux]
  | cons t rest ih =>
    intro prev i
    rw [resolveLeapAux]
    cases i with
    | zero =>
      by_cases ht : t.leap_month
      · simp [ht]
      · simp [ht]
    | succ j => simpa using ih _ j

set_option maxHeartbeats 1000000 in
/-- C8: the leap-resolution sweep keeps the list's length and every leap
flag, and afterwards every entry marked leap that has a predecessor
carries that predecessor's month number (the predecessor as the sweep
left it). -/
theorem leap_inherits (ms : List TempoDate) (i : ℕ) :
    (resolveLeap ms).length = ms.length ∧
    Option.map TempoDate.leap_month (resolveLeap ms)[i]? =
      Option.map TempoDate.leap_month ms[i]? ∧
    match (resolveLeap ms)[i + 1]?, (resolveLeap ms)[i]? with
    | some t, some p => t.leap_month = true → t.month = p.month
    | _, _ => True := by
  cases ms with
  | nil => refine ⟨rfl, rfl, ?_⟩; simp [resolveLeap]
  | cons m rest =>
    rw [resolveLeap]
    refine ⟨by simp [resolveLeapAux_length], ?_, resolveLeapAux_chain rest m i⟩
    cases i with
    | zero => simp
    | succ j => simpa using resolveLeapAux_flag rest m j

theorem toOption_getD_ok (x d : Rokuyo) :
    (Except.ok x : Except String Rokuyo).toOption.getD d = x := rfl

set_option maxHeartbeats 1000000 in
/-- C10: for any `TempoDate` the wrapped rokuyo index is below 6, so
`from_number` never takes its error branch and `rokuyo()` succeeds — in
particular whenever `month + day ≥ 2`; the interface precondition is
about the index's meaning, not its range: at `month = 0, day = 1` (a
leap month the sweep could not number, day 1) the `usize` subtraction
`month + day - 2` underflows and wraps, and the sweep indeed leaves a
leading leap month's number untouched (at 0). -/
theorem rokuyo_safety :
    (∀ td : TempoDate, 2 ≤ td.month + td.day →
        td.rokuyo_checked = Except.ok td.rokuyo) ∧
    (∀ m d : ℕ, rokuyoIndex m d < 6) ∧
    usizeSub (usizeAdd 0 1) 2 = 2 ^ 64 - 1 ∧
    (∀ ms : List TempoDate, (resolveLeap ms).head? = ms.head?) := by
  refine ⟨?_, rokuyoIndex_lt6, ?_, ?_⟩
  · intro td _
    have hok := from_number_ok (rokuyoIndex td.month td.day) (rokuyoIndex_lt6 _ _)
    have hch : td.rokuyo_checked =
        Except.ok (rokuyoOfIndex (rokuyoIndex td.month td.day)) := by
      unfold TempoDate.rokuyo_checked
      rw [hok.1]
    have hrok : td.rokuyo = rokuyoOfIndex (rokuyoIndex td.month td.day) := by
      unfold TempoDate.rokuyo
      rw [hch, toOption_getD_ok]
    rw [hch, hrok]
  · unfold usizeSub usizeAdd
    norm_num
  · intro ms
    cases ms with
    | nil => rfl
    | cons m rest => rfl
